import Mathlib

/-!
Shallow embedding of `src/downloader.py` (freibergs/multi-downloader):
the resumable-download state machine `FileDownloader.download_file` and the
orchestrator `FileDownloader.download_files`.

Network behaviour is an oracle: a list of per-attempt `FetchResult`s, one per
`requests.get` the loop issues.  Local filesystem state (temp file, final
file), the mutable Python locals (`start_bytes`, `headers`, `retries`) and the
shared progress bar are carried in an explicit `DState`.  The observable
progress-sink history (`trace`) and the sequence of issued requests with the
temp-file size at that moment (`fetchLog`) are recorded so that the spec's
observable properties can be stated.
-/

/-- The distinguishable kinds of exception a `requests.get`/stream can raise.
The first `except` clause of `download_file` (line 112) catches
`requests.ConnectionError`, `urllib3.ProtocolError` and `IncompleteRead`.
Per the requests library's documented exception hierarchy, DNS resolution
failures raise `requests.ConnectionError`, and `ConnectTimeout` is a subclass
of both `ConnectionError` and `Timeout`, so both are caught by that first
clause; `ReadTimeout`, HTTP error statuses (`raise_for_status`) and any other
`RequestException` fall through to the second clause (line 119). -/
inductive ErrKind
  | connectionError
  | protocolError
  | incompleteRead
  | connectTimeout
  | dnsFailure
  | readTimeout
  | httpStatusError
  | otherRequest
deriving DecidableEq

/-- Which exception kinds are caught by the first `except` clause (line 112),
the connectivity-loss handler. -/
def catchesConnectivity : ErrKind → Bool
  | .connectionError => true
  | .protocolError => true
  | .incompleteRead => true
  | .connectTimeout => true
  | .dnsFailure => true
  | .readTimeout => false
  | .httpStatusError => false
  | .otherRequest => false

/-- Outcome of one `requests.get` attempt (the body of the `try` at line 88).
`preErr`: an exception before any byte is streamed (at `requests.get` or
`raise_for_status`); the temp file is untouched.
`midErr`: the response arrived with the given success status, the temp file
was opened (truncating when the effective offset is 0) and the listed chunks
were written before exception `k` was raised.
`ok`: the response arrived with the given status and its whole body, the
listed chunks, was streamed. -/
inductive FetchResult
  | preErr (k : ErrKind)
  | midErr (status : Nat) (k : ErrKind) (chunks : List Nat)
  | ok (status : Nat) (chunks : List Nat)
deriving DecidableEq

/-- The state threaded through one `download_file` run: local filesystem
(temp/final file sizes), the Python locals, and the observable histories. -/
structure DState where
  /-- bytes currently in the temp file (0 when absent). -/
  tempSize : Nat
  /-- whether a file exists at the final location. -/
  finalExists : Bool
  /-- its size (0 when absent). -/
  finalSize : Nat
  /-- the Python local `start_bytes`. -/
  startBytes : Nat
  /-- the `headers` dict: `some o` for `Range: bytes=o-`, `none` for no header. -/
  headers : Option Nat
  /-- the Python local `retries`. -/
  retries : Nat
  /-- number of `time.sleep(retry_delay)` calls made by the retry handler. -/
  sleeps : Nat
  /-- current progress-bar value `progress_bar.n`. -/
  bar : Nat
  /-- history of progress-bar values after each sink update, oldest first. -/
  trace : List Nat
  /-- one entry per issued `requests.get`: the Range header sent and the
  temp-file size at that moment. -/
  fetchLog : List (Option Nat × Nat)
deriving DecidableEq

/-- The streaming loop (lines 99-104): each truthy (nonzero) chunk is written
and the progress bar updated; returns the final bar value and the list of bar
values observed by the sink. -/
def sinkUpdates (bar : Nat) : List Nat → Nat × List Nat
  | [] => (bar, [])
  | c :: cs =>
      if 0 < c then
        let p := sinkUpdates (bar + c) cs
        (p.1, (bar + c) :: p.2)
      else sinkUpdates bar cs

/-- Result of one iteration of the `while` loop: `done` means the `return` at
line 111 was reached; `again` means an exception handler ran and the loop
continues. -/
inductive StepRes
  | done (s : DState)
  | again (s : DState)
deriving DecidableEq

/-- The state reached by a step, whichever constructor. -/
def StepRes.state : StepRes → DState
  | .done s => s
  | .again s => s

/-- One iteration of the `while retries <= max_retries` body (lines 88-122),
given the oracle's outcome `r` for this attempt. -/
def attemptStep (totalSize : Nat) (r : FetchResult) (s : DState) : StepRes :=
  let s := { s with fetchLog := s.fetchLog ++ [(s.headers, s.tempSize)] }
  match r with
  | .preErr k =>
      if catchesConnectivity k then
        .again { s with startBytes := s.tempSize, headers := some s.tempSize }
      else
        .again { s with retries := s.retries + 1, sleeps := s.sleeps + 1 }
  | .midErr status k chunks =>
      let restart : Bool := decide (0 < s.startBytes ∧ status ≠ 206)
      let start1 := if restart then 0 else s.startBytes
      let hdr1 := if restart then none else s.headers
      let temp1 := if 0 < start1 then s.tempSize else 0
      let p := sinkUpdates s.bar chunks
      let s1 : DState :=
        { s with tempSize := temp1 + chunks.sum,
                 startBytes := start1 + chunks.sum,
                 headers := hdr1, bar := p.1, trace := s.trace ++ p.2 }
      if catchesConnectivity k then
        .again { s1 with startBytes := s1.tempSize, headers := some s1.tempSize }
      else
        .again { s1 with retries := s1.retries + 1, sleeps := s1.sleeps + 1 }
  | .ok status chunks =>
      let restart : Bool := decide (0 < s.startBytes ∧ status ≠ 206)
      let start1 := if restart then 0 else s.startBytes
      let hdr1 := if restart then none else s.headers
      let temp1 := if 0 < start1 then s.tempSize else 0
      let p := sinkUpdates s.bar chunks
      .done
        { s with tempSize := 0, finalExists := true,
                 finalSize := temp1 + chunks.sum,
                 startBytes := start1 + chunks.sum, headers := hdr1,
                 bar := totalSize, trace := s.trace ++ p.2 ++ [totalSize] }

/-- Terminal observation of a `download_file` run: `completed` (the success
return), `failed` (the retry budget was exceeded and line 124 logged failure),
or `pending` (the finite oracle was exhausted while the loop would continue —
the transfer is still running / blocked). -/
inductive Outcome
  | completed
  | failed
  | pending
deriving DecidableEq

/-- The `while retries <= max_retries` loop (lines 87-124), consuming one
oracle entry per attempted `requests.get`. -/
def downloadLoop (maxRetries totalSize : Nat) (fuel : List FetchResult)
    (s : DState) : Outcome × DState :=
  if maxRetries < s.retries then (.failed, s)
  else
    match fuel with
    | [] => (.pending, s)
    | r :: rest =>
        match attemptStep totalSize r s with
        | .done s' => (.completed, s')
        | .again s' => downloadLoop maxRetries totalSize rest s'

/-- The local filesystem as `download_file` finds it on entry. -/
structure InitFS where
  tempSize : Nat
  finalExists : Bool
  finalSize : Nat
deriving DecidableEq

/-- Lines 73, 84-85: `start_bytes` from the temp file, the initial Range
header iff `start_bytes > 0`, `retries = 0`.  `barInit` is the progress bar's
starting value (in `download_files` it is initialised to the temp size). -/
def initState (fs0 : InitFS) (barInit : Nat) : DState :=
  { tempSize := fs0.tempSize, finalExists := fs0.finalExists,
    finalSize := fs0.finalSize, startBytes := fs0.tempSize,
    headers := if 0 < fs0.tempSize then some fs0.tempSize else none,
    retries := 0, sleeps := 0, bar := barInit, trace := [], fetchLog := [] }

/-- `FileDownloader.download_file` (lines 67-124).  `totalSize` is the value
returned by the size probe (`_get_file_size`, 0 when the probe fails or the
header is absent).  The short-circuit at line 77 fires when the final file
exists and its size equals `totalSize`; otherwise the retry loop runs against
the oracle. -/
def download_file (maxRetries totalSize : Nat) (fs0 : InitFS) (barInit : Nat)
    (oracle : List FetchResult) : Outcome × DState :=
  if fs0.finalExists = true ∧ fs0.finalSize = totalSize then
    (.completed,
      { initState fs0 barInit with bar := totalSize, trace := [totalSize] })
  else
    downloadLoop maxRetries totalSize oracle (initState fs0 barInit)

/-- How one worker's `download_file` call turns out: it either runs against a
network oracle, or raises an unclassified fault that escapes the function. -/
inductive WorkerBehavior
  | runs (oracle : List FetchResult)
  | faults
deriving DecidableEq

/-- One requested URL, with its probed size, the local filesystem state for
its name, and its worker's behaviour. -/
structure Target where
  totalSize : Nat
  fs0 : InitFS
  behavior : WorkerBehavior
deriving DecidableEq

/-- What the orchestrator records for one finished future (lines 151-156):
either the transfer's own terminal observation, or — when an unclassified
exception escaped `download_file` — the fault is caught by the
`except Exception` at line 154 and logged. -/
inductive OrchOutcome
  | result (o : Outcome) (s : DState)
  | loggedFault
deriving DecidableEq

/-- Drive one target: run its `download_file` (the progress bar starts at the
existing temp size, line 137), or catch its escaped fault. -/
def runTarget (maxRetries : Nat) (t : Target) : OrchOutcome :=
  match t.behavior with
  | .runs oracle =>
      let r := download_file maxRetries t.totalSize t.fs0 t.fs0.tempSize oracle
      .result r.1 r.2
  | .faults => .loggedFault

/-- `FileDownloader.download_files` (lines 126-159): every URL is submitted
exactly once; each target's transfer runs on its own state, and each future's
outcome (or escaped fault) is collected independently. -/
def download_files (maxRetries : Nat) (targets : List Target) : List OrchOutcome :=
  targets.map (runTarget maxRetries)

/-- Terminal observation of an orchestrator entry, `none` for a logged fault. -/
def orchSummary : OrchOutcome → Option Outcome
  | .result o _ => some o
  | .loggedFault => none

/-- Connectivity-loss-class attempt outcomes: the exception is one the first
`except` clause catches. -/
def isConnClass : FetchResult → Bool
  | .preErr k => catchesConnectivity k
  | .midErr _ k _ => catchesConnectivity k
  | .ok _ _ => false

/-- Retry-counted attempt outcomes: the exception falls to the second
`except` clause. -/
def isReqCounted : FetchResult → Bool
  | .preErr k => !catchesConnectivity k
  | .midErr _ k _ => !catchesConnectivity k
  | .ok _ _ => false

/-! ## Helper lemmas -/

theorem sinkUpdates_fst (chunks : List Nat) :
    ∀ bar, (sinkUpdates bar chunks).1 = bar + chunks.sum := by
  induction chunks with
  | nil => intro bar; simp [sinkUpdates]
  | cons c cs ih =>
      intro bar
      by_cases hc : 0 < c
      · simp [sinkUpdates, hc, ih]; omega
      · have hc0 : c = 0 := by omega
        simp [sinkUpdates, hc, hc0, ih]

theorem sinkUpdates_le (chunks : List Nat) :
    ∀ bar x, x ∈ (sinkUpdates bar chunks).2 → bar ≤ x := by
  induction chunks with
  | nil => intro bar x hx; simp [sinkUpdates] at hx
  | cons c cs ih =>
      intro bar x hx
      by_cases hc : 0 < c
      · simp [sinkUpdates, hc] at hx
        rcases hx with hx | hx
        · omega
        · have := ih (bar + c) x hx; omega
      · simp [sinkUpdates, hc] at hx
        exact ih bar x hx

theorem sinkUpdates_chain (chunks : List Nat) :
    ∀ bar, List.Chain' (fun a b => a ≤ b) (sinkUpdates bar chunks).2 := by
  induction chunks with
  | nil => intro bar; simp [sinkUpdates]
  | cons c cs ih =>
      intro bar
      by_cases hc : 0 < c
      · simp only [sinkUpdates, hc, if_pos]
        refine List.chain'_cons'.2 ⟨?_, ih (bar + c)⟩
        intro y hy
        exact sinkUpdates_le cs (bar + c) y (List.mem_of_mem_head? hy)
      · simp only [sinkUpdates, hc, if_neg, ite_false]
        exact ih bar


theorem attemptStep_log (t : Nat) (r : FetchResult) (s : DState) :
    (attemptStep t r s).state.fetchLog = s.fetchLog ++ [(s.headers, s.tempSize)] := by
  cases r with
  | preErr k =>
      by_cases h : catchesConnectivity k = true <;>
        simp [attemptStep, h, StepRes.state]
  | midErr status k chunks =>
      by_cases h : catchesConnectivity k = true <;>
        simp [attemptStep, h, StepRes.state]
  | ok status chunks => simp [attemptStep, StepRes.state]

theorem connStep (t : Nat) (r : FetchResult) (s : DState)
    (h : isConnClass r = true) :
    ∃ s', attemptStep t r s = .again s' ∧ s'.retries = s.retries ∧
      s'.sleeps = s.sleeps ∧ s'.startBytes = s'.tempSize ∧
      s'.headers = some s'.tempSize ∧
      s'.fetchLog = s.fetchLog ++ [(s.headers, s.tempSize)] := by
  cases r with
  | preErr k =>
      simp only [isConnClass] at h
      simp only [attemptStep, h, if_true]
      exact ⟨_, rfl, rfl, rfl, rfl, rfl, rfl⟩
  | midErr status k chunks =>
      simp only [isConnClass] at h
      simp only [attemptStep, h, if_true]
      exact ⟨_, rfl, rfl, rfl, rfl, rfl, rfl⟩
  | ok status chunks => simp [isConnClass] at h

theorem reqStep (t : Nat) (r : FetchResult) (s : DState)
    (h : isReqCounted r = true) :
    ∃ s', attemptStep t r s = .again s' ∧ s'.retries = s.retries + 1 ∧
      s'.sleeps = s.sleeps + 1 ∧
      s'.fetchLog = s.fetchLog ++ [(s.headers, s.tempSize)] := by
  cases r with
  | preErr k =>
      simp only [isReqCounted, Bool.not_eq_true'] at h
      simp only [attemptStep, h, Bool.false_eq_true, if_false]
      exact ⟨_, rfl, rfl, rfl, rfl⟩
  | midErr status k chunks =>
      simp only [isReqCounted, Bool.not_eq_true'] at h
      simp only [attemptStep, h, Bool.false_eq_true, if_false]
      exact ⟨_, rfl, rfl, rfl, rfl⟩
  | ok status chunks => simp [isReqCounted] at h

theorem downloadLoop_stop (m t : Nat) (fuel : List FetchResult) (s : DState)
    (hm : m < s.retries) : downloadLoop m t fuel s = (.failed, s) := by
  cases fuel <;> simp [downloadLoop, hm]

theorem downloadLoop_nil (m t : Nat) (s : DState) (hm : ¬ m < s.retries) :
    downloadLoop m t [] s = (.pending, s) := by
  simp [downloadLoop, hm]

theorem downloadLoop_cons_done (m t : Nat) (r : FetchResult)
    (rest : List FetchResult) (s s' : DState) (hm : ¬ m < s.retries)
    (hx : attemptStep t r s = .done s') :
    downloadLoop m t (r :: rest) s = (.completed, s') := by
  simp [downloadLoop, hm, hx]

theorem downloadLoop_cons_again (m t : Nat) (r : FetchResult)
    (rest : List FetchResult) (s s' : DState) (hm : ¬ m < s.retries)
    (hx : attemptStep t r s = .again s') :
    downloadLoop m t (r :: rest) s = downloadLoop m t rest s' := by
  simp [downloadLoop, hm, hx]

theorem loop_log_extends (m t : Nat) (fuel : List FetchResult) :
    ∀ s, ∃ l, (downloadLoop m t fuel s).2.fetchLog = s.fetchLog ++ l := by
  induction fuel with
  | nil =>
      intro s
      by_cases hm : m < s.retries
      · exact ⟨[], by rw [downloadLoop_stop m t [] s hm]; simp⟩
      · exact ⟨[], by rw [downloadLoop_nil m t s hm]; simp⟩
  | cons r rest ih =>
      intro s
      by_cases hm : m < s.retries
      · exact ⟨[], by rw [downloadLoop_stop m t (r :: rest) s hm]; simp⟩
      · have hlog := attemptStep_log t r s
        rcases hx : attemptStep t r s with s' | s'
        · refine ⟨[(s.headers, s.tempSize)], ?_⟩
          rw [hx] at hlog
          simp only [StepRes.state] at hlog
          rw [downloadLoop_cons_done m t r rest s s' hm hx]
          exact hlog
        · rw [hx] at hlog
          simp only [StepRes.state] at hlog
          rcases ih s' with ⟨l, hl⟩
          refine ⟨(s.headers, s.tempSize) :: l, ?_⟩
          rw [downloadLoop_cons_again m t r rest s s' hm hx, hl, hlog]
          simp


theorem loop_completed_log (m t : Nat) (fuel : List FetchResult) :
    ∀ s, (downloadLoop m t fuel s).1 = .completed →
      s.fetchLog.length < (downloadLoop m t fuel s).2.fetchLog.length := by
  induction fuel with
  | nil =>
      intro s hc
      by_cases hm : m < s.retries
      · rw [downloadLoop_stop m t [] s hm] at hc; cases hc
      · rw [downloadLoop_nil m t s hm] at hc; cases hc
  | cons r rest ih =>
      intro s hc
      by_cases hm : m < s.retries
      · rw [downloadLoop_stop m t (r :: rest) s hm] at hc; cases hc
      · have hlog := attemptStep_log t r s
        rcases hx : attemptStep t r s with s' | s'
        · rw [hx] at hlog
          simp only [StepRes.state] at hlog
          rw [downloadLoop_cons_done m t r rest s s' hm hx]
          simp [hlog]
        · rw [hx] at hlog
          simp only [StepRes.state] at hlog
          rw [downloadLoop_cons_again m t r rest s s' hm hx] at hc ⊢
          have h1 := ih s' hc
          have h2 : s.fetchLog.length < s'.fetchLog.length := by
            rw [hlog]; simp
          omega

theorem loop_head (m t : Nat) (r : FetchResult) (rest : List FetchResult)
    (s : DState) (hm : ¬ m < s.retries) (h0 : s.fetchLog = []) :
    (downloadLoop m t (r :: rest) s).2.fetchLog.head? =
      some (s.headers, s.tempSize) := by
  have hlog := attemptStep_log t r s
  rcases hx : attemptStep t r s with s' | s'
  · rw [hx] at hlog
    simp only [StepRes.state] at hlog
    rw [downloadLoop_cons_done m t r rest s s' hm hx]
    simp [hlog, h0]
  · rw [hx] at hlog
    simp only [StepRes.state] at hlog
    rw [downloadLoop_cons_again m t r rest s s' hm hx]
    rcases loop_log_extends m t rest s' with ⟨l, hl⟩
    rw [hl, hlog, h0]
    simp

theorem loop_conn (m t : Nat) (fuel : List FetchResult) :
    ∀ s, (∀ r ∈ fuel, isConnClass r = true) → s.retries ≤ m →
      (downloadLoop m t fuel s).1 = .pending ∧
      (downloadLoop m t fuel s).2.retries = s.retries := by
  induction fuel with
  | nil =>
      intro s _ hr
      have hm : ¬ m < s.retries := by omega
      rw [downloadLoop_nil m t s hm]
      exact ⟨rfl, rfl⟩
  | cons r rest ih =>
      intro s hall hr
      have hm : ¬ m < s.retries := by omega
      rcases connStep t r s (hall r (by simp)) with
        ⟨s', hx, hret, -, -, -, -⟩
      rw [downloadLoop_cons_again m t r rest s s' hm hx]
      have := ih s' (fun x hx2 => hall x (by simp [hx2])) (by omega)
      exact ⟨this.1, by rw [this.2, hret]⟩

theorem loop_req_failed (m t : Nat) (fuel : List FetchResult) :
    ∀ s, (∀ r ∈ fuel, isReqCounted r = true) → s.retries ≤ m →
      m + 1 - s.retries ≤ fuel.length →
      (downloadLoop m t fuel s).1 = .failed ∧
      (downloadLoop m t fuel s).2.fetchLog.length =
        s.fetchLog.length + (m + 1 - s.retries) := by
  induction fuel with
  | nil =>
      intro s _ hr hlen
      simp at hlen
      omega
  | cons r rest ih =>
      intro s hall hr hlen
      have hm : ¬ m < s.retries := by omega
      rcases reqStep t r s (hall r (by simp)) with ⟨s', hx, hret, -, hlog⟩
      rw [downloadLoop_cons_again m t r rest s s' hm hx]
      by_cases hend : s.retries = m
      · have hm' : m < s'.retries := by omega
        rw [downloadLoop_stop m t rest s' hm']
        refine ⟨rfl, ?_⟩
        rw [hlog]
        simp
        omega
      · have := ih s' (fun x hx2 => hall x (by simp [hx2])) (by omega)
          (by simp at hlen ⊢; omega)
        refine ⟨this.1, ?_⟩
        rw [this.2, hlog]
        simp
        omega

theorem loop_req_pending (m t : Nat) (fuel : List FetchResult) :
    ∀ s, (∀ r ∈ fuel, isReqCounted r = true) → s.retries ≤ m →
      fuel.length < m + 1 - s.retries →
      (downloadLoop m t fuel s).1 = .pending ∧
      (downloadLoop m t fuel s).2.fetchLog.length =
        s.fetchLog.length + fuel.length := by
  induction fuel with
  | nil =>
      intro s _ hr _
      have hm : ¬ m < s.retries := by omega
      rw [downloadLoop_nil m t s hm]
      exact ⟨rfl, by simp⟩
  | cons r rest ih =>
      intro s hall hr hlen
      have hm : ¬ m < s.retries := by omega
      rcases reqStep t r s (hall r (by simp)) with ⟨s', hx, hret, -, hlog⟩
      rw [downloadLoop_cons_again m t r rest s s' hm hx]
      have := ih s' (fun x hx2 => hall x (by simp [hx2]))
        (by simp at hlen; omega) (by simp at hlen ⊢; omega)
      refine ⟨this.1, ?_⟩
      rw [this.2, hlog]
      simp
      omega

theorem okStep_206 (t : Nat) (chunks : List Nat) (s : DState)
    (h : 0 < s.startBytes) :
    ∃ s', attemptStep t (.ok 206 chunks) s = .done s' ∧
      s'.finalSize = s.tempSize + chunks.sum ∧ s'.finalExists = true ∧
      s'.fetchLog = s.fetchLog ++ [(s.headers, s.tempSize)] := by
  have hr : decide (0 < s.startBytes ∧ (206 : Nat) ≠ 206) = false := by simp
  simp only [attemptStep, hr, Bool.false_eq_true, if_false, if_pos h]
  exact ⟨_, rfl, rfl, rfl, rfl⟩

/-! ## Claim theorems -/

/-- C2: a target whose fetch attempts all fail with connectivity-loss-class
errors never increments the retry counter and never reaches the `Failed`
terminal outcome (it stays pending within any finite trace); moreover, every
connectivity-loss handler run recomputes the offset from the current
temp-file size and installs a matching Range header before looping. -/
theorem C2_connectivity_never_fails (m t b : Nat) (fs0 : InitFS)
    (oracle : List FetchResult)
    (hall : ∀ r ∈ oracle, isConnClass r = true) :
    (download_file m t fs0 b oracle).1 ≠ .failed ∧
    (download_file m t fs0 b oracle).2.retries = 0 ∧
    (∀ s r, isConnClass r = true → ∃ s', attemptStep t r s = .again s' ∧
      s'.retries = s.retries ∧ s'.startBytes = s'.tempSize ∧
      s'.headers = some s'.tempSize) := by
  refine ⟨?_, ?_, ?_⟩
  · by_cases hsc : fs0.finalExists = true ∧ fs0.finalSize = t
    · simp [download_file, hsc]
    · have hun : download_file m t fs0 b oracle =
          downloadLoop m t oracle (initState fs0 b) := by
        simp [download_file, hsc]
      rw [hun]
      have := loop_conn m t oracle (initState fs0 b) hall (by simp [initState])
      rw [this.1]
      simp
  · by_cases hsc : fs0.finalExists = true ∧ fs0.finalSize = t
    · simp [download_file, hsc, initState]
    · have hun : download_file m t fs0 b oracle =
          downloadLoop m t oracle (initState fs0 b) := by
        simp [download_file, hsc]
      rw [hun]
      have := loop_conn m t oracle (initState fs0 b) hall (by simp [initState])
      rw [this.2]
      simp [initState]
  · intro s r h
    rcases connStep t r s h with ⟨s', hx, hret, -, hsb, hhd, -⟩
    exact ⟨s', hx, hret, hsb, hhd⟩

theorem C2_connectivity_never_fails_witness :
    (download_file 2 7 ⟨3, false, 0⟩ 3
        [.preErr .connectionError, .midErr 206 .protocolError [2]]).1 ≠
      .failed ∧
    (download_file 2 7 ⟨3, false, 0⟩ 3
        [.preErr .connectionError, .midErr 206 .protocolError [2]]).2.retries =
      0 := by
  have h := C2_connectivity_never_fails 2 7 3 ⟨3, false, 0⟩
    [.preErr .connectionError, .midErr 206 .protocolError [2]] (by decide)
  exact ⟨h.1, h.2.1⟩

/-- C3 counterexample: a DNS failure raises `requests.ConnectionError`, which
the first `except` clause catches: at this input the retry counter stays 0
(not 1 as the claim requires) and the connectivity handler installs a Range
header, i.e. the failure IS treated as a connectivity-loss event. -/
theorem C3_cex :
    (download_file 10 10 ⟨0, false, 0⟩ 0 [.preErr .dnsFailure]).2.retries = 0 ∧
    ¬ (download_file 10 10 ⟨0, false, 0⟩ 0
        [.preErr .dnsFailure]).2.retries = 1 ∧
    (download_file 10 10 ⟨0, false, 0⟩ 0 [.preErr .dnsFailure]).2.headers =
      some 0 := by
  decide

/-- C3 (amended): every request-level failure that is not caught by the
connectivity clause — a read timeout of the streaming request, an HTTP error
status, or any other non-connection `RequestException` — increments the retry
counter by exactly one and is followed by exactly one fixed `retryDelay`
sleep, leaving headers and local files untouched; but DNS failures and
connect timeouts raise `requests.ConnectionError` and are handled as
connectivity-loss events instead. -/
theorem C3_request_level_retry (t : Nat) (s : DState) (k : ErrKind)
    (h : catchesConnectivity k = false) :
    (∃ s', attemptStep t (.preErr k) s = .again s' ∧
      s'.retries = s.retries + 1 ∧ s'.sleeps = s.sleeps + 1 ∧
      s'.headers = s.headers ∧ s'.tempSize = s.tempSize ∧
      s'.startBytes = s.startBytes) ∧
    (∀ status chunks, ∃ s',
      attemptStep t (.midErr status k chunks) s = .again s' ∧
      s'.retries = s.retries + 1 ∧ s'.sleeps = s.sleeps + 1) ∧
    catchesConnectivity .readTimeout = false ∧
    catchesConnectivity .httpStatusError = false ∧
    catchesConnectivity .otherRequest = false ∧
    catchesConnectivity .dnsFailure = true ∧
    catchesConnectivity .connectTimeout = true := by
  refine ⟨?_, ?_, rfl, rfl, rfl, rfl, rfl⟩
  · simp only [attemptStep, h, Bool.false_eq_true, if_false]
    exact ⟨_, rfl, rfl, rfl, rfl, rfl, rfl⟩
  · intro status chunks
    have hk : isReqCounted (.midErr status k chunks) = true := by
      simp [isReqCounted, h]
    rcases reqStep t (.midErr status k chunks) s hk with ⟨s', hx, hret, hsl, -⟩
    exact ⟨s', hx, hret, hsl⟩

theorem C3_request_level_retry_witness :
    ∃ s', attemptStep 5 (.preErr .readTimeout) (initState ⟨0, false, 0⟩ 0) =
        .again s' ∧ s'.retries = 1 ∧ s'.sleeps = 1 := by
  rcases (C3_request_level_retry 5 (initState ⟨0, false, 0⟩ 0)
      .readTimeout rfl).1 with ⟨s', h1, h2, h3, -⟩
  refine ⟨s', h1, ?_, ?_⟩
  · rw [h2]; rfl
  · rw [h3]; rfl

/-- C4: a target whose every fetch attempt fails with a retry-counted
(request-level) error reaches `Failed` after exactly `maxRetries + 1`
attempts: with at least `maxRetries + 1` attempt outcomes available the run
fails having issued exactly `maxRetries + 1` requests, and with fewer it has
not failed yet, having issued one request per available outcome. -/
theorem C4_bounded_retries (m t b : Nat) (fs0 : InitFS)
    (oracle : List FetchResult)
    (hsc : ¬ (fs0.finalExists = true ∧ fs0.finalSize = t))
    (hall : ∀ r ∈ oracle, isReqCounted r = true) :
    (m + 1 ≤ oracle.length →
      (download_file m t fs0 b oracle).1 = .failed ∧
      (download_file m t fs0 b oracle).2.fetchLog.length = m + 1) ∧
    (oracle.length < m + 1 →
      (download_file m t fs0 b oracle).1 = .pending ∧
      (download_file m t fs0 b oracle).2.fetchLog.length =
        oracle.length) := by
  have hun : download_file m t fs0 b oracle =
      downloadLoop m t oracle (initState fs0 b) := by
    simp [download_file, hsc]
  constructor
  · intro hlen
    have := loop_req_failed m t oracle (initState fs0 b) hall
      (by simp [initState]) (by simp [initState]; omega)
    rw [hun]
    refine ⟨this.1, ?_⟩
    rw [this.2]
    simp [initState]
  · intro hlen
    have := loop_req_pending m t oracle (initState fs0 b) hall
      (by simp [initState]) (by simp [initState]; omega)
    rw [hun]
    refine ⟨this.1, ?_⟩
    rw [this.2]
    simp [initState]

theorem C4_bounded_retries_witness :
    (download_file 1 5 ⟨0, false, 0⟩ 0
        [.preErr .httpStatusError, .preErr .httpStatusError]).1 = .failed ∧
    (download_file 1 5 ⟨0, false, 0⟩ 0
        [.preErr .httpStatusError, .preErr .httpStatusError]).2.fetchLog.length =
      2 := by
  exact (C4_bounded_retries 1 5 0 ⟨0, false, 0⟩
    [.preErr .httpStatusError, .preErr .httpStatusError]
    (by decide) (by decide)).1 (by decide)

/-- C6: when a Range header was sent (`start_bytes > 0`) but the server
answers a successful non-206 status, the attempt resets the offset to 0,
reopens the temp file in truncating mode (the finalized size is exactly the
streamed body, independent of the previous temp contents), clears the Range
header, streams the full body to completion, and does not touch the retry
counter. -/
theorem C6_restart_on_non206 (t st : Nat) (chunks : List Nat) (s : DState)
    (h : 0 < s.startBytes) (h206 : st ≠ 206) :
    ∃ s', attemptStep t (.ok st chunks) s = .done s' ∧
      s'.finalExists = true ∧ s'.finalSize = chunks.sum ∧
      s'.startBytes = chunks.sum ∧ s'.headers = none ∧
      s'.retries = s.retries ∧ s'.sleeps = s.sleeps := by
  have hr : decide (0 < s.startBytes ∧ st ≠ 206) = true := by
    simp [h, h206]
  simp only [attemptStep, hr, if_true, Nat.lt_irrefl, if_false, Nat.zero_add]
  exact ⟨_, rfl, rfl, by simp, by simp, rfl, rfl, rfl⟩

theorem C6_restart_on_non206_witness :
    ∃ s', attemptStep 10 (.ok 200 [4, 6]) (initState ⟨3, false, 0⟩ 3) =
        .done s' ∧ s'.finalSize = 10 ∧ s'.retries = 0 := by
  rcases C6_restart_on_non206 10 200 [4, 6] (initState ⟨3, false, 0⟩ 3)
      (by decide) (by decide) with ⟨s', hx, -, hfs, -, -, hret, -⟩
  refine ⟨s', hx, ?_, ?_⟩
  · rw [hfs]; rfl
  · rw [hret]; rfl

/-- C1 counterexample: (i) after a connectivity-loss recovery with an empty
temp file the handler still installs `Range: bytes=0-`, so the second issued
request carries a Range header although the current temp-file size is 0,
refuting the claimed "if and only if"; (ii) a successful streamed 206 fetch
whose body is shorter than the remainder finalizes a file of size 5, not
totalSize = 10, so success alone does not force the claimed final size. -/
theorem C1_cex :
    (download_file 10 10 ⟨0, false, 0⟩ 0
        [.preErr .connectionError, .ok 206 [10]]).2.fetchLog =
      [(none, 0), (some 0, 0)] ∧
    ¬ (∀ e ∈ (download_file 10 10 ⟨0, false, 0⟩ 0
        [.preErr .connectionError, .ok 206 [10]]).2.fetchLog,
        (e.1.isSome = true ↔ 0 < e.2)) ∧
    (download_file 10 10 ⟨4, false, 0⟩ 4 [.ok 206 [1]]).1 = .completed ∧
    (download_file 10 10 ⟨4, false, 0⟩ 4 [.ok 206 [1]]).2.finalSize = 5 ∧
    ¬ (download_file 10 10 ⟨4, false, 0⟩ 4 [.ok 206 [1]]).2.finalSize = 10 := by
  decide

/-- C1 (amended): for a target with temp size `k`, `0 < k < totalSize` and no
matching final file, the fetch is issued with Range offset `k`; when the 206
response streams exactly the remaining `totalSize - k` bytes the run
completes and the finalized file's size equals `totalSize`; at transfer start
a Range header is sent iff the temp size is positive (it equals the recorded
first log entry), while after a connectivity recovery a Range header with
offset equal to the current temp-file size is always installed — even when
that size is 0. -/
theorem C1_resume_range (m t k b : Nat) (fs0 : InitFS) (chunks : List Nat)
    (rest : List FetchResult)
    (hk : fs0.tempSize = k) (h0 : 0 < k) (hkt : k < t)
    (hsc : ¬ (fs0.finalExists = true ∧ fs0.finalSize = t))
    (hsum : chunks.sum = t - k) :
    (download_file m t fs0 b (.ok 206 chunks :: rest)).1 = .completed ∧
    (download_file m t fs0 b (.ok 206 chunks :: rest)).2.finalSize = t ∧
    (download_file m t fs0 b (.ok 206 chunks :: rest)).2.fetchLog.head? =
      some (some k, k) ∧
    (∀ s r, isConnClass r = true → ∃ s', attemptStep t r s = .again s' ∧
      s'.headers = some s'.tempSize) := by
  have hun : download_file m t fs0 b (.ok 206 chunks :: rest) =
      downloadLoop m t (.ok 206 chunks :: rest) (initState fs0 b) := by
    simp [download_file, hsc]
  rcases okStep_206 t chunks (initState fs0 b)
      (by simp [initState, hk, h0]) with ⟨s', hx, hfs, hfe, hlog⟩
  have hm : ¬ m < (initState fs0 b).retries := by simp [initState]
  have hdone := downloadLoop_cons_done m t (.ok 206 chunks) rest
    (initState fs0 b) s' hm hx
  rw [hun, hdone]
  refine ⟨rfl, ?_, ?_, ?_⟩
  · rw [hfs, hsum]
    simp [initState, hk]
    omega
  · rw [hlog]
    simp [initState, hk, h0]
  · intro s r h
    rcases connStep t r s h with ⟨s2, hx2, -, -, -, hhd, -⟩
    exact ⟨s2, hx2, hhd⟩

theorem C1_resume_range_witness :
    (download_file 3 10 ⟨4, false, 0⟩ 4 [.ok 206 [6]]).1 = .completed ∧
    (download_file 3 10 ⟨4, false, 0⟩ 4 [.ok 206 [6]]).2.finalSize = 10 ∧
    (download_file 3 10 ⟨4, false, 0⟩ 4 [.ok 206 [6]]).2.fetchLog.head? =
      some (some 4, 4) := by
  have h := C1_resume_range 3 10 4 4 ⟨4, false, 0⟩ [6] [] rfl
    (by decide) (by decide) (by decide) (by decide)
  exact ⟨h.1, h.2.1, h.2.2.1⟩

/-- C5 counterexample: with probed `totalSize = 0` (unknown) and an existing
0-byte final file, the short-circuit DOES trigger: the run completes with no
fetch issued and reports `bar = 0`, refuting "when the probed totalSize is 0
the short-circuit never triggers, even if a final file exists". -/
theorem C5_cex :
    (download_file 10 0 ⟨0, true, 0⟩ 0 []).1 = .completed ∧
    (download_file 10 0 ⟨0, true, 0⟩ 0 []).2.fetchLog = [] ∧
    (download_file 10 0 ⟨0, true, 0⟩ 0 []).2.bar = 0 := by
  decide

/-- C5 (amended): `download_file` short-circuits to `Completed` without any
network body fetch if and only if a file exists at the final location whose
size equals the probed `totalSize` — with no nonzero guard on `totalSize`, so
the degenerate case `totalSize = 0` with an existing empty final file also
short-circuits; when it triggers, the reported count is set to the full
`totalSize`. -/
theorem C5_short_circuit_iff (m t b : Nat) (fs0 : InitFS)
    (oracle : List FetchResult) :
    (((download_file m t fs0 b oracle).1 = .completed ∧
      (download_file m t fs0 b oracle).2.fetchLog = []) ↔
      (fs0.finalExists = true ∧ fs0.finalSize = t)) ∧
    (fs0.finalExists = true → fs0.finalSize = t →
      (download_file m t fs0 b oracle).2.bar = t ∧
      (download_file m t fs0 b oracle).2.trace = [t]) := by
  constructor
  · constructor
    · intro h
      by_cases hsc : fs0.finalExists = true ∧ fs0.finalSize = t
      · exact hsc
      · exfalso
        have hun : download_file m t fs0 b oracle =
            downloadLoop m t oracle (initState fs0 b) := by
          simp [download_file, hsc]
        rw [hun] at h
        have := loop_completed_log m t oracle (initState fs0 b) h.1
        rw [h.2] at this
        simp [initState] at this
    · intro h
      constructor
      · simp [download_file, h.1, h.2]
      · simp [download_file, h.1, h.2, initState]
  · intro h1 h2
    constructor
    · simp [download_file, h1, h2]
    · simp [download_file, h1, h2]

theorem C5_short_circuit_iff_witness :
    (download_file 3 7 ⟨0, true, 7⟩ 0 []).1 = .completed ∧
    (download_file 3 7 ⟨0, true, 7⟩ 0 []).2.bar = 7 := by
  have h := C5_short_circuit_iff 3 7 0 ⟨0, true, 7⟩ []
  exact ⟨(h.1.mpr ⟨rfl, rfl⟩).1, (h.2 rfl rfl).1⟩

/-- C7 counterexample: temp file of 4 bytes, server ignores the range and
answers 200 with the full 10-byte body; the temp file is truncated (final
size 10, not 14), but the reported completed-byte count is never reset to 0:
the sink history is `[14, 10]` — it continues from the prior value 4 and even
decreases at the closing reconciliation, refuting "resets the reported
completed-byte count to 0 exactly once". -/
theorem C7_cex :
    (download_file 10 10 ⟨4, false, 0⟩ 4 [.ok 200 [10]]).1 = .completed ∧
    (download_file 10 10 ⟨4, false, 0⟩ 4 [.ok 200 [10]]).2.finalSize = 10 ∧
    (download_file 10 10 ⟨4, false, 0⟩ 4 [.ok 200 [10]]).2.trace = [14, 10] ∧
    ¬ 0 ∈ (download_file 10 10 ⟨4, false, 0⟩ 4 [.ok 200 [10]]).2.trace := by
  decide

/-- C7 (amended): within a single streaming run the sequence of
completed-byte values observed by the progress sink is non-decreasing and
never drops below the value the bar held when the run began; a
resume-unsupported restart truncates the local partial file (the finalized
size is exactly the restreamed body), but it does NOT reset the reported
count — the sink continues accumulating from its prior value. -/
theorem C7_monotone_no_reset :
    (∀ bar chunks, List.Chain' (fun a b => a ≤ b) (sinkUpdates bar chunks).2 ∧
      ∀ x ∈ (sinkUpdates bar chunks).2, bar ≤ x) ∧
    (∀ t st chunks (s : DState), 0 < s.startBytes → st ≠ 206 →
      ∃ s', attemptStep t (.ok st chunks) s = .done s' ∧
        s'.finalSize = chunks.sum ∧
        s'.trace = s.trace ++ (sinkUpdates s.bar chunks).2 ++ [t]) := by
  constructor
  · intro bar chunks
    exact ⟨sinkUpdates_chain chunks bar,
      fun x hx => sinkUpdates_le chunks bar x hx⟩
  · intro t st chunks s h h206
    have hr : decide (0 < s.startBytes ∧ st ≠ 206) = true := by
      simp [h, h206]
    simp only [attemptStep, hr, if_true, Nat.lt_irrefl, if_false,
      Nat.zero_add]
    exact ⟨_, rfl, rfl, rfl⟩

theorem C7_monotone_no_reset_witness :
    List.Chain' (fun a b => a ≤ b) (sinkUpdates 4 [3, 7]).2 ∧
    ∃ s', attemptStep 10 (.ok 200 [10]) (initState ⟨4, false, 0⟩ 4) =
        .done s' ∧ s'.finalSize = 10 := by
  refine ⟨(C7_monotone_no_reset.1 4 [3, 7]).1, ?_⟩
  rcases C7_monotone_no_reset.2 10 200 [10] (initState ⟨4, false, 0⟩ 4)
      (by decide) (by decide) with ⟨s', hx, hfs, -⟩
  exact ⟨s', hx, by rw [hfs]; decide⟩

/-- C9: the orchestrator produces exactly one entry per requested target, and
each entry is determined by that target alone — so one target's terminal
failure, or an unclassified fault escaping its transfer and caught at the
orchestrator boundary, cannot cancel or affect any sibling; in the concrete
batch, the first target exhausts its retries, the second raises an escaped
fault that is caught and logged, and the healthy third still completes. -/
theorem C9_isolation (m : Nat) (targets : List Target) :
    (download_files m targets).length = targets.length ∧
    (∀ i : Nat, (download_files m targets)[i]? =
      (targets[i]?).map (runTarget m)) ∧
    (download_files 1
        [⟨5, ⟨0, false, 0⟩,
            .runs [.preErr .httpStatusError, .preErr .httpStatusError]⟩,
         ⟨5, ⟨0, false, 0⟩, .faults⟩,
         ⟨5, ⟨0, false, 0⟩, .runs [.ok 200 [5]]⟩]).map orchSummary =
      [some .failed, none, some .completed] := by
  refine ⟨by simp [download_files], ?_, by decide⟩
  intro i
  simp [download_files]

/-- C10: when the temp file already holds exactly the known nonzero
`totalSize` but no matching final file exists, the run never finalizes from
local data alone: with no fetch it remains pending, any completion required
at least one issued fetch, the first fetch carries `Range: bytes=totalSize-`,
and when every attempt answers a retry-counted HTTP error the retry budget is
consumed and the target fails despite all bytes being present locally. -/
theorem C10_no_local_finalize (m t b : Nat) (fs0 : InitFS)
    (oracle : List FetchResult)
    (ht : fs0.tempSize = t) (h0 : 0 < t)
    (hsc : ¬ (fs0.finalExists = true ∧ fs0.finalSize = t)) :
    (download_file m t fs0 b []).1 = .pending ∧
    ((download_file m t fs0 b oracle).1 = .completed →
      (download_file m t fs0 b oracle).2.fetchLog ≠ []) ∧
    (∀ r rest, (download_file m t fs0 b (r :: rest)).2.fetchLog.head? =
      some (some t, t)) ∧
    ((∀ r ∈ oracle, isReqCounted r = true) → m + 1 ≤ oracle.length →
      (download_file m t fs0 b oracle).1 = .failed) := by
  have hun : ∀ orl : List FetchResult, download_file m t fs0 b orl =
      downloadLoop m t orl (initState fs0 b) := by
    intro orl
    simp [download_file, hsc]
  refine ⟨?_, ?_, ?_, ?_⟩
  · rw [hun [], downloadLoop_nil m t (initState fs0 b) (by simp [initState])]
  · intro hc hnil
    rw [hun] at hc hnil
    have := loop_completed_log m t oracle (initState fs0 b) hc
    rw [hnil] at this
    simp [initState] at this
  · intro r rest
    rw [hun]
    have := loop_head m t r rest (initState fs0 b)
      (by simp [initState]) (by simp [initState])
    rw [this]
    simp [initState, ht, h0]
  · intro hall hlen
    rw [hun]
    exact (loop_req_failed m t oracle (initState fs0 b) hall
      (by simp [initState]) (by simp [initState]; omega)).1

theorem C10_no_local_finalize_witness :
    (download_file 0 5 ⟨5, false, 0⟩ 5 [.preErr .httpStatusError]).1 =
      .failed ∧
    (download_file 0 5 ⟨5, false, 0⟩ 5
        [.preErr .httpStatusError]).2.fetchLog.head? = some (some 5, 5) := by
  have h := C10_no_local_finalize 0 5 5 ⟨5, false, 0⟩
    [.preErr .httpStatusError] rfl (by decide) (by decide)
  exact ⟨h.2.2.2 (by decide) (by decide), h.2.2.1 (.preErr .httpStatusError) []⟩

/-- C8 counterexample: with an unknown size (`totalSize = 0`) and a 5-byte
body streamed to success, the run completes with a 5-byte final file but the
closing progress assignment sets the reported count to `total_size`, i.e. 0 —
not to the actual number of bytes written as the claim requires. -/
theorem C8_cex :
    (download_file 10 0 ⟨0, false, 0⟩ 0 [.ok 200 [5]]).1 = .completed ∧
    (download_file 10 0 ⟨0, false, 0⟩ 0 [.ok 200 [5]]).2.finalSize = 5 ∧
    (download_file 10 0 ⟨0, false, 0⟩ 0 [.ok 200 [5]]).2.bar = 0 ∧
    ¬ (download_file 10 0 ⟨0, false, 0⟩ 0 [.ok 200 [5]]).2.bar = 5 := by
  decide

/-- C8 (amended): on full-body success the attempt finalizes by the atomic
move (the temp file is consumed, the final file exists) and then sets the
reported completed-byte count to `totalSize` unconditionally — also when the
size was unknown (`totalSize = 0`), in which case the accumulated count is
discarded rather than kept; the closing progress event is `totalSize`. -/
theorem C8_success_reconciles_to_total (t st : Nat) (chunks : List Nat)
    (s : DState) :
    ∃ s', attemptStep t (.ok st chunks) s = .done s' ∧
      s'.finalExists = true ∧ s'.tempSize = 0 ∧ s'.bar = t ∧
      s'.trace = s.trace ++ (sinkUpdates s.bar chunks).2 ++ [t] := by
  simp only [attemptStep]
  exact ⟨_, rfl, rfl, rfl, rfl, rfl⟩
